import Mathlib

/-!
Shallow embedding of the lit-analyzer sources:
  * `getHtmlData` (html data merge layer),
  * `completionsAtOffset` (lit-html completion dispatch),
  * `VscodeCssService` (`getDiagnostics`, `getQuickInfo`, `getCompletions`,
    `translateCompletionItemKind`, `LitVscodeCSSDataProvider`),
  * the `LitCodeFix` discriminated union.
External library data shapes (ts-simple-type, vscode-css-languageservice)
are modelled by the fields this code reads and writes; functions supplied
by modules outside the embedded files (`parseHtmlData`, `html5TagAttrType`,
the language services, the per-context completion providers) are taken as
explicit parameters, so every theorem is universally quantified over them.
-/

/-- Kinds of simple types from ts-simple-type; only `ANY` is inspected by the
embedded code, the remaining constructors keep the type non-degenerate. -/
inductive SimpleTypeKind where
  | ANY
  | STRING
  | NUMBER
  | BOOLEAN
  | UNION
  deriving DecidableEq, Repr

/-- A simple type, carried around by its kind (the embedded code only ever
reads `type.kind` and replaces whole `type` values). -/
structure SimpleType where
  kind : SimpleTypeKind
  deriving DecidableEq, Repr

/-- An html tag attribute (`HtmlTagAttr` from parse-html-data/html-tag). -/
structure HtmlTagAttr where
  name : String
  type : SimpleType
  deriving DecidableEq, Repr

/-- An html tag (`HtmlTag` from parse-html-data/html-tag). The optional
fields default to `none`, matching the TS casts that leave them undefined. -/
structure HtmlTag where
  name : String
  attributes : List HtmlTagAttr
  hasDeclaration : Option Bool := none
  description : Option String := none
  deriving DecidableEq, Repr

/-- The result shape of `parseHtmlData`, restricted to the fields
`getHtmlData` touches. -/
structure HtmlDataResult where
  tags : List HtmlTag
  globalAttrs : List HtmlTagAttr
  deriving DecidableEq, Repr

/-- The plugin configuration fields read by `getHtmlData`. -/
structure Config where
  globalHtmlTags : List String
  globalHtmlAttributes : List String
  deriving DecidableEq, Repr

/-- The "svg" tag pushed by `getHtmlData`. -/
def svgTag : HtmlTag :=
  { attributes := [], name := "svg", hasDeclaration := some false, description := some "" }

/-- The attribute map applied at the end of `getHtmlData`: a type of kind
`ANY` is replaced by `html5TagAttrType` of the attribute name. -/
def adjustAttr (html5TagAttrType : String → SimpleType) (attr : HtmlTagAttr) : HtmlTagAttr :=
  { attr with
    type := if attr.type.kind = SimpleTypeKind.ANY then html5TagAttrType attr.name else attr.type }

/-- The tag map applied at the end of `getHtmlData`: `adjustAttr` over the
tag's attributes. -/
def adjustTag (html5TagAttrType : String → SimpleType) (tag : HtmlTag) : HtmlTag :=
  { tag with attributes := tag.attributes.map (adjustAttr html5TagAttrType) }

/-- Embedding of `getHtmlData`. `parsed` stands for the result of
`parseHtmlData` on the HTML5 data, and `html5TagAttrType` for the function
of the same name from extra-html-data; both live outside the embedded file
and are abstracted as parameters. The body mirrors the source: push the
"svg" tag, push one empty tag per configured global tag name, push one
`ANY`-typed attribute per configured global attribute name, then rewrite
every `ANY`-typed attribute through `html5TagAttrType`. -/
def getHtmlData (html5TagAttrType : String → SimpleType) (parsed : HtmlDataResult)
    (config : Config) : HtmlDataResult :=
  let tags :=
    parsed.tags ++ [svgTag] ++
      config.globalHtmlTags.map (fun tagName => ({ name := tagName, attributes := [] } : HtmlTag))
  let globalAttrs :=
    parsed.globalAttrs ++
      config.globalHtmlAttributes.map
        (fun attrName => ({ name := attrName, type := { kind := SimpleTypeKind.ANY } } : HtmlTagAttr))
  { tags := tags.map (adjustTag html5TagAttrType),
    globalAttrs := globalAttrs.map (adjustAttr html5TagAttrType) }

/-- A half-open source range of document offsets; `stop` renders the TS
field `end` (a Lean keyword). -/
structure OffsetRange where
  start : Nat
  stop : Nat
  deriving DecidableEq, Repr

/-- An html node; the embedded code only threads nodes through to the
completion providers, so the tag name is the only field kept. -/
structure HtmlNode where
  tagName : String
  deriving DecidableEq, Repr

/-- The location data of an html attribute; `name` is the range of the
attribute name in the document. -/
structure HtmlAttrLocation where
  name : OffsetRange
  deriving DecidableEq, Repr

/-- An html attribute as used by `completionsAtOffset`: its node and its
location. -/
structure HtmlAttr where
  htmlNode : HtmlNode
  location : HtmlAttrLocation
  deriving DecidableEq, Repr

/-- An html attribute assignment; threaded through to
`completionsForHtmlAttrValues` unchanged. -/
structure HtmlAttrAssignment where
  htmlAttr : HtmlAttr
  deriving DecidableEq, Repr

/-- The position context returned by `getPositionContextInDocument`;
`completionsAtOffset` reads `beforeWord`. -/
structure PositionContext where
  beforeWord : String
  deriving DecidableEq, Repr

/-- A global tag from the plugin store (`getGlobalTags`). -/
structure GlobalTag where
  tagName : String
  description : Option String := none
  builtIn : Bool := false
  deriving DecidableEq, Repr

/-- The plugin store, restricted to the global-tags iterable the embedded
code reads. -/
structure TsLitPluginStore where
  globalTags : List GlobalTag
  deriving DecidableEq, Repr

/-- Embedding of `store.getGlobalTags()`. -/
def TsLitPluginStore.getGlobalTags (store : TsLitPluginStore) : List GlobalTag :=
  store.globalTags

/-- The diagnostics context handed to every provider; it carries the store. -/
structure DiagnosticsContext where
  store : TsLitPluginStore
  deriving DecidableEq, Repr

/-- A completion item in the plugin's shape (`LitCompletion`). `kind` and
`importance` are string unions in TS and are modelled as strings; `range`
defaults to `none` just as the TS object literals leave it undefined. -/
structure LitCompletion where
  name : String
  insert : String
  kind : String
  kindModifiers : Option String := none
  importance : String
  range : Option OffsetRange := none
  documentation : Option String := none
  deriving DecidableEq, Repr

/-- The html document as consumed by `completionsAtOffset`: its three
offset-lookup methods, abstracted as function fields. -/
structure HtmlDocument where
  htmlAttrNameAtOffset : Nat → Option HtmlAttr
  htmlAttrAreaAtOffset : Nat → Option HtmlNode
  htmlAttrAssignmentAtOffset : Nat → Option HtmlAttrAssignment

/-- Embedding of `completionsAtOffset`. The helper modules
(`getPositionContextInDocument`, `completionsForHtmlAttrs`,
`completionsForHtmlAttrValues`, `completionsForHtmlNodes`) live outside the
embedded file and are passed as parameters. The body mirrors the source's
if/else chain: attribute name, then attribute assignment, then attribute
area, then a `<` before the offset, then no completions. -/
def completionsAtOffset
    (getPositionContextInDocument : HtmlDocument → Nat → PositionContext)
    (completionsForHtmlAttrs : HtmlNode → DiagnosticsContext → List LitCompletion)
    (completionsForHtmlAttrValues : HtmlAttrAssignment → DiagnosticsContext → List LitCompletion)
    (completionsForHtmlNodes : PositionContext → DiagnosticsContext → List LitCompletion)
    (document : HtmlDocument) (offset : Nat) (context : DiagnosticsContext) :
    List LitCompletion :=
  let positionContext := getPositionContextInDocument document offset
  let beforeWord := positionContext.beforeWord
  let intersectingAttr := document.htmlAttrNameAtOffset offset
  let intersectingAttrAreaNode := document.htmlAttrAreaAtOffset offset
  let intersectingAttrAssignment := document.htmlAttrAssignmentAtOffset offset
  match intersectingAttr with
  | some attr =>
      (completionsForHtmlAttrs attr.htmlNode context).map
        (fun entry => { entry with range := some attr.location.name })
  | none =>
      match intersectingAttrAssignment with
      | some assignment => completionsForHtmlAttrValues assignment context
      | none =>
          match intersectingAttrAreaNode with
          | some node => completionsForHtmlAttrs node context
          | none =>
              if beforeWord = "<" then completionsForHtmlNodes positionContext context
              else []

/-- A zero-based line/character position from vscode-languageserver-types. -/
structure Position where
  line : Nat
  character : Nat
  deriving DecidableEq, Repr

/-- A position range; `stop` renders the TS field `end` (a Lean keyword). -/
structure VscRange where
  start : Position
  stop : Position
  deriving DecidableEq, Repr

/-- Diagnostic severities from vscode-languageserver-types. -/
inductive DiagnosticSeverity where
  | Error
  | Warning
  | Information
  | Hint
  deriving DecidableEq, Repr

/-- A diagnostic as produced by the css language service; `severity` is
optional there. -/
structure Diagnostic where
  range : VscRange
  severity : Option DiagnosticSeverity := none
  message : String
  deriving DecidableEq, Repr

/-- The virtual text document built by `makeVscTextDocument`, abstracted by
the three members the embedded code calls. -/
structure VscTextDocument where
  offsetAt : Position → Nat
  positionAt : Nat → Position
  lineCount : Nat

/-- A css diagnostic in the plugin's shape (`LitCssDiagnostic`); its
severity is the string union "error" | "warning". -/
structure LitCssDiagnostic where
  severity : String
  location : OffsetRange
  message : String
  deriving DecidableEq, Repr

/-- The translation applied to each kept diagnostic inside
`VscodeCssService.getDiagnostics`. -/
def translateCssDiagnostic (vscTextDocument : VscTextDocument) (diagnostic : Diagnostic) :
    LitCssDiagnostic :=
  { severity := if diagnostic.severity = some DiagnosticSeverity.Error then "error" else "warning",
    location :=
      { start := vscTextDocument.offsetAt diagnostic.range.start,
        stop := vscTextDocument.offsetAt diagnostic.range.stop },
    message := diagnostic.message }

/-- Embedding of `VscodeCssService.getDiagnostics`. The scss service's
`doValidation` output is abstracted as the `diagnostics` parameter; the
body mirrors the source's filter (drop diagnostics starting on line 0 or
at/after `lineCount - 1`) followed by the translation map. -/
def getDiagnostics (vscTextDocument : VscTextDocument) (diagnostics : List Diagnostic) :
    List LitCssDiagnostic :=
  (diagnostics.filter
      (fun diagnostic =>
        diagnostic.range.start.line != 0 &&
          diagnostic.range.start.line < vscTextDocument.lineCount - 1)).map
    (translateCssDiagnostic vscTextDocument)

/-- Hover contents from the css service: a plain string, a markup object
(no `language` member), or a marked string carrying a `language`. -/
inductive HoverContent where
  | str (value : String)
  | markup (value : String)
  | marked (language : String) (value : String)
  deriving DecidableEq, Repr

/-- A hover result; `range` is optional there. -/
structure Hover where
  contents : List HoverContent
  range : Option VscRange := none
  deriving DecidableEq, Repr

/-- A quick-info in the plugin's shape (`LitQuickInfo`). -/
structure LitQuickInfo where
  primaryInfo : String
  secondaryInfo : Option String := none
  range : OffsetRange
  deriving DecidableEq, Repr

/-- The `text` read out of a hover content (`content.value` when it is an
object, the content itself when it is a string). -/
def hoverContentText : HoverContent → String
  | HoverContent.str value => value
  | HoverContent.markup value => value
  | HoverContent.marked _ value => value

/-- One step of the content loop in `getQuickInfo`: a marked string with
language "html" (re)sets `primaryInfo`, every other content sets
`secondaryInfo`. The accumulator is the pair
(`primaryInfo`, `secondaryInfo`). -/
def quickInfoStep (acc : Option String × Option String) (content : HoverContent) :
    Option String × Option String :=
  let text := hoverContentText content
  match content with
  | HoverContent.marked language _ =>
      if language = "html" then (some ((if acc.1 = none then "" else "\n\n") ++ text), acc.2)
      else acc
  | _ => (acc.1, some text)

/-- Embedding of `VscodeCssService.getQuickInfo`. The scss service's
`doHover` result is abstracted as the `hover` parameter; the body mirrors
the early return on a missing hover or missing hover range, the content
loop, the `primaryInfo || ""` defaulting, and the range conversion through
`offsetAt`. -/
def getQuickInfo (vscTextDocument : VscTextDocument) (hover : Option Hover) :
    Option LitQuickInfo :=
  match hover with
  | none => none
  | some hover =>
      match hover.range with
      | none => none
      | some range =>
          let st := hover.contents.foldl quickInfoStep (none, none)
          some
            { primaryInfo := st.1.getD "",
              secondaryInfo := st.2,
              range :=
                { start := vscTextDocument.offsetAt range.start,
                  stop := vscTextDocument.offsetAt range.stop } }

/-- Completion item kinds from vscode-languageserver-types (all 25). -/
inductive CompletionItemKind where
  | Text
  | Method
  | Function
  | Constructor
  | Field
  | Variable
  | Class
  | Interface
  | Module
  | Property
  | Unit
  | Value
  | Enum
  | Keyword
  | Snippet
  | Color
  | File
  | Reference
  | Folder
  | EnumMember
  | Constant
  | Struct
  | Event
  | Operator
  | TypeParameter
  deriving DecidableEq, Repr

/-- Documentation attached to a completion item: a plain string or a markup
object whose `value` is read. -/
inductive DocumentationContent where
  | str (value : String)
  | markup (value : String)
  deriving DecidableEq, Repr

/-- A completion item as returned by the css service's `doComplete`,
restricted to the members the embedded code reads. -/
structure CompletionItem where
  label : String
  kind : Option CompletionItemKind := none
  documentation : Option DocumentationContent := none
  deriving DecidableEq, Repr

/-- Embedding of `translateCompletionItemKind`: the switch over completion
item kinds, whose `default` (shared with `Snippet` and `Text`) is
"unknown". `LitCompletionKind` is a string union and is rendered as
`String`. -/
def translateCompletionItemKind (kind : CompletionItemKind) : String :=
  match kind with
  | CompletionItemKind.Method => "memberFunctionElement"
  | CompletionItemKind.Function => "functionElement"
  | CompletionItemKind.Constructor => "constructorImplementationElement"
  | CompletionItemKind.Field => "variableElement"
  | CompletionItemKind.Variable => "variableElement"
  | CompletionItemKind.Class => "classElement"
  | CompletionItemKind.Interface => "interfaceElement"
  | CompletionItemKind.Module => "moduleElement"
  | CompletionItemKind.Property => "memberVariableElement"
  | CompletionItemKind.Unit => "constElement"
  | CompletionItemKind.Value => "constElement"
  | CompletionItemKind.Enum => "enumElement"
  | CompletionItemKind.Keyword => "keyword"
  | CompletionItemKind.Color => "constElement"
  | CompletionItemKind.Reference => "alias"
  | CompletionItemKind.File => "moduleElement"
  | _ => "unknown"

/-- The translation applied to each completion item inside
`VscodeCssService.getCompletions` (the `lazy` wrapper around the
documentation thunk is dropped: it only defers evaluation). -/
def translateCompletionItem (i : CompletionItem) : LitCompletion :=
  { kind :=
      match i.kind with
      | none => "unknown"
      | some kind => translateCompletionItemKind kind,
    insert := i.label,
    name := i.label,
    kindModifiers := if i.kind = some CompletionItemKind.Color then some "color" else none,
    importance :=
      if i.label.startsWith "@" || i.label.startsWith "-" then "low"
      else if i.label.startsWith ":" then "medium"
      else "high",
    documentation :=
      match i.documentation with
      | some (DocumentationContent.str value) => some value
      | some (DocumentationContent.markup value) => some value
      | none => none }

/-- Embedding of `VscodeCssService.getCompletions`. The css service's
`doComplete` item list is abstracted as the `items` parameter; the body is
the source's map over `items.items`. -/
def getCompletions (items : List CompletionItem) : List LitCompletion :=
  items.map translateCompletionItem

/-- A pseudo-element entry of the custom css data provider
(`IPseudoElementData`). -/
structure PseudoElementData where
  name : String
  description : Option String := none
  browsers : List String := []
  status : String
  deriving DecidableEq, Repr

/-- An at-directive entry (`IAtDirectiveData`); the embedded code never
builds one, only returns the empty list of them. -/
structure AtDirectiveData where
  name : String
  deriving DecidableEq, Repr

/-- A pseudo-class entry (`IPseudoClassData`). -/
structure PseudoClassData where
  name : String
  deriving DecidableEq, Repr

/-- A css property entry (`IPropertyData`). -/
structure PropertyData where
  name : String
  deriving DecidableEq, Repr

/-- The state of `LitVscodeCSSDataProvider`: the pseudo-element list its
provider closure reads. -/
structure LitVscodeCSSDataProvider where
  pseudoElementData : List PseudoElementData := []
  deriving DecidableEq, Repr

/-- Embedding of `LitVscodeCSSDataProvider.update`: rebuild the
pseudo-element data from the store's global tags, keeping exactly the tags
whose `builtIn` flag is false. -/
def LitVscodeCSSDataProvider.update (provider : LitVscodeCSSDataProvider)
    (store : TsLitPluginStore) : LitVscodeCSSDataProvider :=
  { provider with
    pseudoElementData :=
      (store.getGlobalTags.filter (fun tag => !tag.builtIn)).map
        (fun tag =>
          ({ browsers := [], description := tag.description, name := tag.tagName,
             status := "standard" } : PseudoElementData)) }

/-- The provider closure's `providePseudoElements`. -/
def LitVscodeCSSDataProvider.providePseudoElements (provider : LitVscodeCSSDataProvider) :
    List PseudoElementData :=
  provider.pseudoElementData

/-- The provider closure's `provideAtDirectives`. -/
def LitVscodeCSSDataProvider.provideAtDirectives (_provider : LitVscodeCSSDataProvider) :
    List AtDirectiveData :=
  []

/-- The provider closure's `providePseudoClasses`. -/
def LitVscodeCSSDataProvider.providePseudoClasses (_provider : LitVscodeCSSDataProvider) :
    List PseudoClassData :=
  []

/-- The provider closure's `provideProperties`. -/
def LitVscodeCSSDataProvider.provideProperties (_provider : LitVscodeCSSDataProvider) :
    List PropertyData :=
  []

/-- Modelled from the spec: the discriminants of the `LitHtmlDiagnostic`
union from ./lit-diagnostic, a module the sources only import. The five
kinds named by the code-fix union's imports are distinguished; every other
member of the union is collapsed into `OTHER_DIAGNOSTIC`. -/
inductive LitHtmlDiagnosticKind where
  | UNKNOWN_ATTRIBUTE
  | UNKNOWN_TAG
  | BOOL_MOD
  | PRIMITIVE_NOT_ASSIGNABLE_TO_COMPLEX
  | MISSING_IMPORT
  | OTHER_DIAGNOSTIC
  deriving DecidableEq, Repr

/-- A diagnostic report, carried by its discriminant kind and message. -/
structure LitHtmlDiagnostic where
  kind : LitHtmlDiagnosticKind
  message : String := ""
  deriving DecidableEq, Repr

/-- A code-fix action; the embedded union only threads actions through, so
a description string is the only field kept. -/
structure LitCodeFixAction where
  description : String := ""
  deriving DecidableEq, Repr

/-- The `CodeFixKind` enum. -/
inductive CodeFixKind where
  | RENAME
  | CHANGE_LIT_MODIFIER
  | IMPORT_COMPONENT
  deriving DecidableEq, Repr

/-- Embedding of the `LitCodeFix` discriminated union: one constructor per
member, each carrying the `CodeFixBase` fields and, as TS does through the
narrowed `htmlReport` member types, a proof that the report's kind belongs
to the member's admissible kinds. -/
inductive LitCodeFix where
  | rename (message : String) (actions : List LitCodeFixAction) (htmlReport : LitHtmlDiagnostic)
      (hreport : htmlReport.kind = LitHtmlDiagnosticKind.UNKNOWN_ATTRIBUTE ∨
        htmlReport.kind = LitHtmlDiagnosticKind.UNKNOWN_TAG)
  | changeLitModifier (message : String) (actions : List LitCodeFixAction)
      (htmlReport : LitHtmlDiagnostic)
      (hreport : htmlReport.kind = LitHtmlDiagnosticKind.BOOL_MOD ∨
        htmlReport.kind = LitHtmlDiagnosticKind.PRIMITIVE_NOT_ASSIGNABLE_TO_COMPLEX)
  | importComponent (message : String) (actions : List LitCodeFixAction)
      (htmlReport : LitHtmlDiagnostic)
      (hreport : htmlReport.kind = LitHtmlDiagnosticKind.MISSING_IMPORT)

/-- The `kind` discriminant of a code fix. -/
def LitCodeFix.kind : LitCodeFix → CodeFixKind
  | LitCodeFix.rename _ _ _ _ => CodeFixKind.RENAME
  | LitCodeFix.changeLitModifier _ _ _ _ => CodeFixKind.CHANGE_LIT_MODIFIER
  | LitCodeFix.importComponent _ _ _ _ => CodeFixKind.IMPORT_COMPONENT

/-- The `htmlReport` member of a code fix. -/
def LitCodeFix.htmlReport : LitCodeFix → LitHtmlDiagnostic
  | LitCodeFix.rename _ _ htmlReport _ => htmlReport
  | LitCodeFix.changeLitModifier _ _ htmlReport _ => htmlReport
  | LitCodeFix.importComponent _ _ htmlReport _ => htmlReport

/-- The `message` member of a code fix. -/
def LitCodeFix.message : LitCodeFix → String
  | LitCodeFix.rename message _ _ _ => message
  | LitCodeFix.changeLitModifier message _ _ _ => message
  | LitCodeFix.importComponent message _ _ _ => message

/-- The `actions` member of a code fix. -/
def LitCodeFix.actions : LitCodeFix → List LitCodeFixAction
  | LitCodeFix.rename _ actions _ _ => actions
  | LitCodeFix.changeLitModifier _ actions _ _ => actions
  | LitCodeFix.importComponent _ actions _ _ => actions

/-- A concrete parse result with one `ANY`-typed attribute, used to
evaluate `getHtmlData` on closed inputs. -/
def c1Parsed : HtmlDataResult :=
  { tags :=
      [{ name := "div",
         attributes := [{ name := "align", type := { kind := SimpleTypeKind.ANY } }] }],
    globalAttrs := [] }

/-- A concrete stand-in for `html5TagAttrType` mapping every name to the
string type. -/
def c1TagAttrType : String → SimpleType :=
  fun _ => { kind := SimpleTypeKind.STRING }

/-- A concrete configuration with no custom tags or attributes. -/
def c1Config : Config :=
  { globalHtmlTags := [], globalHtmlAttributes := [] }

/-- A concrete virtual text document: offsets are `line * 100 + character`
and there are three lines. -/
def exDoc : VscTextDocument :=
  { offsetAt := fun p => p.line * 100 + p.character,
    positionAt := fun n => { line := 0, character := n },
    lineCount := 3 }

/-- A concrete service diagnostic starting on line 1 (strictly inside the
three-line document). -/
def exDiagnostic : Diagnostic :=
  { range :=
      { start := { line := 1, character := 0 }, stop := { line := 1, character := 5 } },
    severity := some DiagnosticSeverity.Error,
    message := "m" }

/-- A concrete hover with one plain-string content and a range. -/
def exHover : Hover :=
  { contents := [HoverContent.str "s"],
    range :=
      some { start := { line := 0, character := 1 }, stop := { line := 0, character := 2 } } }

/-- A concrete html document with no attribute, area or assignment at any
offset. -/
def exHtmlDocument : HtmlDocument :=
  { htmlAttrNameAtOffset := fun _ => none,
    htmlAttrAreaAtOffset := fun _ => none,
    htmlAttrAssignmentAtOffset := fun _ => none }

/-- A concrete diagnostics context over an empty store. -/
def exContext : DiagnosticsContext :=
  { store := { globalTags := [] } }

/-- C1, counterexample: the returned tag list is not literally the parsed
tag list extended with the "svg" tag and the global tags, because the final
map rewrites `ANY`-typed attributes of the parsed tags: with a parsed "div"
tag carrying one `ANY`-typed attribute, the prefix differs. -/
theorem C1_counterexample :
    ¬ (getHtmlData c1TagAttrType c1Parsed c1Config).tags =
        c1Parsed.tags ++ [svgTag] ++
          c1Config.globalHtmlTags.map
            (fun tagName => ({ name := tagName, attributes := [] } : HtmlTag)) := by
  decide

/-- C1 (amended): for every config, parse result and attribute-type
function, the returned tag list is the parsed tag list with each
`ANY`-typed attribute rewritten through `html5TagAttrType`, extended with
the "svg" tag (empty attributes, hasDeclaration false, empty description)
followed by exactly one tag per name in `config.globalHtmlTags`, each with
that name and an empty attribute list. -/
theorem C1_getHtmlData_tags (html5TagAttrType : String → SimpleType)
    (parsed : HtmlDataResult) (config : Config) :
    (getHtmlData html5TagAttrType parsed config).tags =
      parsed.tags.map (adjustTag html5TagAttrType) ++ [svgTag] ++
        config.globalHtmlTags.map
          (fun tagName => ({ name := tagName, attributes := [] } : HtmlTag)) := by
  simp [getHtmlData, adjustTag, svgTag, List.map_map, Function.comp]

/-- C2: in the result of `getHtmlData`, the global attributes are exactly
the parsed ones followed by one per configured name, all rewritten by
`adjustAttr`; `adjustAttr` replaces an `ANY`-typed attribute's type by
`html5TagAttrType` of its name and keeps every other type unchanged; every
configured global attribute name appears with type `html5TagAttrType` of
that name; and when `html5TagAttrType` never produces an `ANY` kind, no
attribute of the result — global or on a tag — has kind `ANY`. -/
theorem C2_getHtmlData_attr_types (html5TagAttrType : String → SimpleType)
    (parsed : HtmlDataResult) (config : Config) :
    ((getHtmlData html5TagAttrType parsed config).globalAttrs =
        (parsed.globalAttrs ++
            config.globalHtmlAttributes.map
              (fun attrName =>
                ({ name := attrName, type := { kind := SimpleTypeKind.ANY } } : HtmlTagAttr))).map
          (adjustAttr html5TagAttrType)) ∧
    (∀ attr : HtmlTagAttr, attr.type.kind = SimpleTypeKind.ANY →
        adjustAttr html5TagAttrType attr = { attr with type := html5TagAttrType attr.name }) ∧
    (∀ attr : HtmlTagAttr, attr.type.kind ≠ SimpleTypeKind.ANY →
        adjustAttr html5TagAttrType attr = attr) ∧
    (∀ attrName ∈ config.globalHtmlAttributes,
        ({ name := attrName, type := html5TagAttrType attrName } : HtmlTagAttr) ∈
          (getHtmlData html5TagAttrType parsed config).globalAttrs) ∧
    ((∀ n, (html5TagAttrType n).kind ≠ SimpleTypeKind.ANY) →
        (∀ attr ∈ (getHtmlData html5TagAttrType parsed config).globalAttrs,
            attr.type.kind ≠ SimpleTypeKind.ANY) ∧
        (∀ tag ∈ (getHtmlData html5TagAttrType parsed config).tags,
            ∀ attr ∈ tag.attributes, attr.type.kind ≠ SimpleTypeKind.ANY)) := by
  have hadj : ∀ attr : HtmlTagAttr,
      (∀ n, (html5TagAttrType n).kind ≠ SimpleTypeKind.ANY) →
      (adjustAttr html5TagAttrType attr).type.kind ≠ SimpleTypeKind.ANY := by
    intro attr hf
    by_cases h : attr.type.kind = SimpleTypeKind.ANY
    · simp [adjustAttr, h]
      exact hf attr.name
    · simp [adjustAttr, h]
  refine ⟨rfl, ?_, ?_, ?_, ?_⟩
  · intro attr h
    simp [adjustAttr, h]
  · intro attr h
    simp [adjustAttr, h]
  · intro attrName hmem
    have hbase :
        ({ name := attrName, type := { kind := SimpleTypeKind.ANY } } : HtmlTagAttr) ∈
          parsed.globalAttrs ++
            config.globalHtmlAttributes.map
              (fun attrName =>
                ({ name := attrName, type := { kind := SimpleTypeKind.ANY } } : HtmlTagAttr)) :=
      List.mem_append_right _ (List.mem_map_of_mem _ hmem)
    have h2 := List.mem_map_of_mem (adjustAttr html5TagAttrType) hbase
    have he :
        adjustAttr html5TagAttrType
            ({ name := attrName, type := { kind := SimpleTypeKind.ANY } } : HtmlTagAttr) =
          { name := attrName, type := html5TagAttrType attrName } := by
      simp [adjustAttr]
    rw [he] at h2
    exact h2
  · intro hf
    constructor
    · intro attr hmem
      simp only [getHtmlData, List.mem_map] at hmem
      obtain ⟨a, _, rfl⟩ := hmem
      exact hadj a hf
    · intro tag htag attr hattr
      simp only [getHtmlData, List.mem_map] at htag
      obtain ⟨t, _, rfl⟩ := htag
      simp only [adjustTag, List.mem_map] at hattr
      obtain ⟨a, _, rfl⟩ := hattr
      exact hadj a hf

/-- C2, witness: a configured global attribute named "foo" shows up in the
returned global attributes with the type the attribute-type function gives
it. -/
theorem C2_witness :
    ({ name := "foo", type := { kind := SimpleTypeKind.STRING } } : HtmlTagAttr) ∈
      (getHtmlData (fun _ => { kind := SimpleTypeKind.STRING })
          { tags := [], globalAttrs := [] }
          { globalHtmlTags := [], globalHtmlAttributes := ["foo"] }).globalAttrs :=
  (C2_getHtmlData_attr_types (fun _ => { kind := SimpleTypeKind.STRING })
      { tags := [], globalAttrs := [] }
      { globalHtmlTags := [], globalHtmlAttributes := ["foo"] }).2.2.2.1
    "foo" (by simp)

/-- C3: `completionsAtOffset` dispatches by position context with a fixed
priority — an intersecting html attribute name yields the attribute
completions with their ranges set to that attribute name's location; else
an intersecting attribute assignment yields attribute-value completions;
else an intersecting attribute area yields attribute completions for that
node; else a "<" before the offset yields tag-name completions; else the
empty list. -/
theorem C3_completionsAtOffset_dispatch
    (getPositionContextInDocument : HtmlDocument → Nat → PositionContext)
    (completionsForHtmlAttrs : HtmlNode → DiagnosticsContext → List LitCompletion)
    (completionsForHtmlAttrValues : HtmlAttrAssignment → DiagnosticsContext → List LitCompletion)
    (completionsForHtmlNodes : PositionContext → DiagnosticsContext → List LitCompletion)
    (document : HtmlDocument) (offset : Nat) (context : DiagnosticsContext) :
    (∀ attr, document.htmlAttrNameAtOffset offset = some attr →
        completionsAtOffset getPositionContextInDocument completionsForHtmlAttrs
            completionsForHtmlAttrValues completionsForHtmlNodes document offset context =
          (completionsForHtmlAttrs attr.htmlNode context).map
            (fun entry => { entry with range := some attr.location.name })) ∧
    (∀ assignment, document.htmlAttrNameAtOffset offset = none →
        document.htmlAttrAssignmentAtOffset offset = some assignment →
        completionsAtOffset getPositionContextInDocument completionsForHtmlAttrs
            completionsForHtmlAttrValues completionsForHtmlNodes document offset context =
          completionsForHtmlAttrValues assignment context) ∧
    (∀ node, document.htmlAttrNameAtOffset offset = none →
        document.htmlAttrAssignmentAtOffset offset = none →
        document.htmlAttrAreaAtOffset offset = some node →
        completionsAtOffset getPositionContextInDocument completionsForHtmlAttrs
            completionsForHtmlAttrValues completionsForHtmlNodes document offset context =
          completionsForHtmlAttrs node context) ∧
    (document.htmlAttrNameAtOffset offset = none →
        document.htmlAttrAssignmentAtOffset offset = none →
        document.htmlAttrAreaAtOffset offset = none →
        (getPositionContextInDocument document offset).beforeWord = "<" →
        completionsAtOffset getPositionContextInDocument completionsForHtmlAttrs
            completionsForHtmlAttrValues completionsForHtmlNodes document offset context =
          completionsForHtmlNodes (getPositionContextInDocument document offset) context) ∧
    (document.htmlAttrNameAtOffset offset = none →
        document.htmlAttrAssignmentAtOffset offset = none →
        document.htmlAttrAreaAtOffset offset = none →
        (getPositionContextInDocument document offset).beforeWord ≠ "<" →
        completionsAtOffset getPositionContextInDocument completionsForHtmlAttrs
            completionsForHtmlAttrValues completionsForHtmlNodes document offset context = []) := by
  refine ⟨?_, ?_, ?_, ?_, ?_⟩
  · intro attr h
    simp [completionsAtOffset, h]
  · intro assignment h1 h2
    simp [completionsAtOffset, h1, h2]
  · intro node h1 h2 h3
    simp [completionsAtOffset, h1, h2, h3]
  · intro h1 h2 h3 h4
    simp [completionsAtOffset, h1, h2, h3, h4]
  · intro h1 h2 h3 h4
    simp [completionsAtOffset, h1, h2, h3, h4]

/-- C3, witness: with no intersecting attribute, assignment or area and a
word other than "<" before the offset, no completions are returned. -/
theorem C3_witness :
    completionsAtOffset (fun _ _ => { beforeWord := "x" }) (fun _ _ => []) (fun _ _ => [])
      (fun _ _ => []) exHtmlDocument 0 exContext = [] :=
  (C3_completionsAtOffset_dispatch (fun _ _ => { beforeWord := "x" }) (fun _ _ => [])
      (fun _ _ => []) (fun _ _ => []) exHtmlDocument 0 exContext).2.2.2.2
    rfl rfl rfl (by decide)

/-- C4: every diagnostic returned by `getDiagnostics` is the translation of
a service diagnostic — severity "error" exactly when the service severity
is `Error` and "warning" otherwise, the message unchanged, and the location
bounds obtained by converting the range's positions through the virtual
text document's `offsetAt`. -/
theorem C4_getDiagnostics_translation (vscTextDocument : VscTextDocument)
    (diagnostics : List Diagnostic) :
    ∀ out ∈ getDiagnostics vscTextDocument diagnostics,
      ∃ diagnostic ∈ diagnostics,
        out.severity =
            (if diagnostic.severity = some DiagnosticSeverity.Error then "error"
             else "warning") ∧
        out.message = diagnostic.message ∧
        out.location.start = vscTextDocument.offsetAt diagnostic.range.start ∧
        out.location.stop = vscTextDocument.offsetAt diagnostic.range.stop := by
  intro out hout
  simp only [getDiagnostics, List.mem_map, List.mem_filter] at hout
  obtain ⟨d, ⟨hd, _⟩, rfl⟩ := hout
  exact ⟨d, hd, rfl, rfl, rfl, rfl⟩

/-- C4, witness: the translation of a concrete `Error` diagnostic on line 1
of a three-line document is returned and matches the stated shape. -/
theorem C4_witness :
    ∃ diagnostic ∈ [exDiagnostic],
      (translateCssDiagnostic exDoc exDiagnostic).severity =
          (if diagnostic.severity = some DiagnosticSeverity.Error then "error"
           else "warning") ∧
      (translateCssDiagnostic exDoc exDiagnostic).message = diagnostic.message ∧
      (translateCssDiagnostic exDoc exDiagnostic).location.start =
        exDoc.offsetAt diagnostic.range.start ∧
      (translateCssDiagnostic exDoc exDiagnostic).location.stop =
        exDoc.offsetAt diagnostic.range.stop :=
  C4_getDiagnostics_translation exDoc [exDiagnostic]
    (translateCssDiagnostic exDoc exDiagnostic) (by decide)

/-- C9: `getDiagnostics` keeps only diagnostics whose range starts strictly
between the first and the last line of the virtual document — every
returned diagnostic comes from a service diagnostic with
`0 < line < lineCount - 1`, and every service diagnostic in that band is
returned (translated). -/
theorem C9_getDiagnostics_edge_filter (vscTextDocument : VscTextDocument)
    (diagnostics : List Diagnostic) :
    (∀ out ∈ getDiagnostics vscTextDocument diagnostics,
        ∃ diagnostic ∈ diagnostics,
          out = translateCssDiagnostic vscTextDocument diagnostic ∧
          diagnostic.range.start.line ≠ 0 ∧
          diagnostic.range.start.line < vscTextDocument.lineCount - 1) ∧
    (∀ diagnostic ∈ diagnostics,
        diagnostic.range.start.line ≠ 0 →
        diagnostic.range.start.line < vscTextDocument.lineCount - 1 →
        translateCssDiagnostic vscTextDocument diagnostic ∈
          getDiagnostics vscTextDocument diagnostics) := by
  constructor
  · intro out hout
    simp only [getDiagnostics, List.mem_map, List.mem_filter, Bool.and_eq_true, bne_iff_ne,
      ne_eq, decide_eq_true_eq] at hout
    obtain ⟨d, ⟨hd, h0, hlt⟩, rfl⟩ := hout
    exact ⟨d, hd, rfl, h0, hlt⟩
  · intro d hd h0 hlt
    simp only [getDiagnostics, List.mem_map, List.mem_filter, Bool.and_eq_true, bne_iff_ne,
      ne_eq, decide_eq_true_eq]
    exact ⟨d, ⟨hd, h0, hlt⟩, rfl⟩

/-- C9, witness: a concrete diagnostic starting on line 1 of a three-line
document survives the edge filter. -/
theorem C9_witness :
    translateCssDiagnostic exDoc exDiagnostic ∈ getDiagnostics exDoc [exDiagnostic] :=
  (C9_getDiagnostics_edge_filter exDoc [exDiagnostic]).2 exDiagnostic (by decide)
    (by decide) (by decide)

/-- C5: after `update`, the custom css data provider's pseudo elements are
exactly one entry per non-builtIn global tag of the store — name the tag
name, description copied, empty browsers, status "standard" — builtIn tags
excluded, while at-directives, pseudo classes and properties stay empty. -/
theorem C5_dataProvider_update (provider : LitVscodeCSSDataProvider)
    (store : TsLitPluginStore) :
    ((provider.update store).providePseudoElements =
        (store.getGlobalTags.filter (fun tag => !tag.builtIn)).map
          (fun tag =>
            ({ browsers := [], description := tag.description, name := tag.tagName,
               status := "standard" } : PseudoElementData))) ∧
    (∀ tag ∈ store.getGlobalTags, tag.builtIn = false →
        ({ browsers := [], description := tag.description, name := tag.tagName,
           status := "standard" } : PseudoElementData) ∈
          (provider.update store).providePseudoElements) ∧
    ((provider.update store).providePseudoElements.length =
        (store.getGlobalTags.filter (fun tag => !tag.builtIn)).length) ∧
    (provider.update store).provideAtDirectives = [] ∧
    (provider.update store).providePseudoClasses = [] ∧
    (provider.update store).provideProperties = [] := by
  refine ⟨rfl, ?_, ?_, rfl, rfl, rfl⟩
  · intro tag htag hbuilt
    exact List.mem_map_of_mem _ (List.mem_filter.mpr ⟨htag, by simp [hbuilt]⟩)
  · simp [LitVscodeCSSDataProvider.update, LitVscodeCSSDataProvider.providePseudoElements]

/-- C5, witness: a non-builtIn global tag "x-el" of the store produces its
pseudo-element entry after `update`. -/
theorem C5_witness :
    ({ browsers := [], description := some "d", name := "x-el",
       status := "standard" } : PseudoElementData) ∈
      (LitVscodeCSSDataProvider.update {}
          { globalTags := [{ tagName := "x-el", description := some "d", builtIn := false }] }).providePseudoElements :=
  (C5_dataProvider_update {}
      { globalTags := [{ tagName := "x-el", description := some "d", builtIn := false }] }).2.1
    { tagName := "x-el", description := some "d", builtIn := false } (by decide) rfl

/-- C6: `getCompletions` translates every item — name and insert are the
item's label, kind is "unknown" when the item has no kind, kindModifiers is
"color" exactly when the item's kind is `Color`, and importance is "low"
for labels starting with "@" or "-", "medium" for labels starting with ":"
and "high" otherwise. -/
theorem C6_getCompletions_translation (items : List CompletionItem) :
    (getCompletions items).length = items.length ∧
    ∀ out ∈ getCompletions items,
      ∃ i ∈ items,
        out.name = i.label ∧
        out.insert = i.label ∧
        (i.kind = none → out.kind = "unknown") ∧
        (out.kindModifiers = some "color" ↔ i.kind = some CompletionItemKind.Color) ∧
        out.importance =
          (if i.label.startsWith "@" || i.label.startsWith "-" then "low"
           else if i.label.startsWith ":" then "medium"
           else "high") := by
  constructor
  · simp [getCompletions]
  · intro out hout
    simp only [getCompletions, List.mem_map] at hout
    obtain ⟨i, hi, rfl⟩ := hout
    refine ⟨i, hi, rfl, rfl, ?_, ?_, rfl⟩
    · intro h
      simp [translateCompletionItem, h]
    · by_cases h : i.kind = some CompletionItemKind.Color <;>
        simp [translateCompletionItem, h]

/-- C6, witness: a concrete kindless item labelled "x" is translated with
name and insert "x", kind "unknown", no kindModifiers and importance
"high". -/
theorem C6_witness :
    ∃ i ∈ [({ label := "x" } : CompletionItem)],
      (translateCompletionItem { label := "x" }).name = i.label ∧
      (translateCompletionItem { label := "x" }).insert = i.label ∧
      (i.kind = none → (translateCompletionItem { label := "x" }).kind = "unknown") ∧
      ((translateCompletionItem { label := "x" }).kindModifiers = some "color" ↔
        i.kind = some CompletionItemKind.Color) ∧
      (translateCompletionItem { label := "x" }).importance =
        (if i.label.startsWith "@" || i.label.startsWith "-" then "low"
         else if i.label.startsWith ":" then "medium"
         else "high") :=
  (C6_getCompletions_translation [{ label := "x" }]).2
    (translateCompletionItem { label := "x" }) (by simp [getCompletions])

/-- Helper: the content loop never sets `primaryInfo` when no content is a
marked string with language "html". -/
theorem quickInfo_foldl_primary_none (contents : List HoverContent)
    (acc : Option String × Option String) (hacc : acc.1 = none)
    (hnone : ∀ language value, HoverContent.marked language value ∈ contents →
      language ≠ "html") :
    (contents.foldl quickInfoStep acc).1 = none := by
  induction contents generalizing acc with
  | nil => exact hacc
  | cons c cs ih =>
    simp only [List.foldl_cons]
    refine ih (quickInfoStep acc c) ?_ ?_
    · cases c with
      | str value => simpa [quickInfoStep] using hacc
      | markup value => simpa [quickInfoStep] using hacc
      | marked language value =>
        have hl : language ≠ "html" := hnone language value (List.mem_cons_self _ _)
        simpa [quickInfoStep, hl] using hacc
    · intro language value hmem
      exact hnone language value (List.mem_cons_of_mem _ hmem)

/-- C7: `getQuickInfo` returns `none` exactly when the hover is missing or
has no range; any returned quick info has its range bounds obtained by
converting the hover range's positions through the virtual document's
`offsetAt`, and its primaryInfo is the empty string whenever no hover
content is a marked string with language "html". -/
theorem C7_getQuickInfo_range_and_primary (vscTextDocument : VscTextDocument)
    (hover : Option Hover) :
    (getQuickInfo vscTextDocument hover = none ↔
        hover = none ∨ ∃ h, hover = some h ∧ h.range = none) ∧
    (∀ h range qi, hover = some h → h.range = some range →
        getQuickInfo vscTextDocument hover = some qi →
        (qi.range.start = vscTextDocument.offsetAt range.start ∧
         qi.range.stop = vscTextDocument.offsetAt range.stop) ∧
        ((∀ language value, HoverContent.marked language value ∈ h.contents →
            language ≠ "html") →
          qi.primaryInfo = "")) := by
  constructor
  · cases hover with
    | none => simp [getQuickInfo]
    | some h =>
      cases hr : h.range with
      | none => simp [getQuickInfo, hr]
      | some range => simp [getQuickInfo, hr]
  · rintro h range qi rfl hr hqi
    simp only [getQuickInfo, hr, Option.some.injEq] at hqi
    subst hqi
    refine ⟨⟨rfl, rfl⟩, ?_⟩
    intro hnone
    have hfold := quickInfo_foldl_primary_none h.contents (none, none) rfl hnone
    simp [hfold]

/-- C7, witness: a concrete hover whose only content is a plain string
yields a quick info with the converted range and empty primaryInfo. -/
theorem C7_witness :
    ((({ primaryInfo := "", secondaryInfo := some "s",
         range := { start := 1, stop := 2 } } : LitQuickInfo).range.start =
        exDoc.offsetAt { line := 0, character := 1 } ∧
      ({ primaryInfo := "", secondaryInfo := some "s",
         range := { start := 1, stop := 2 } } : LitQuickInfo).range.stop =
        exDoc.offsetAt { line := 0, character := 2 }) ∧
     ((∀ language value, HoverContent.marked language value ∈ exHover.contents →
         language ≠ "html") →
       ({ primaryInfo := "", secondaryInfo := some "s",
          range := { start := 1, stop := 2 } } : LitQuickInfo).primaryInfo = "")) :=
  (C7_getQuickInfo_range_and_primary exDoc (some exHover)).2 exHover
    { start := { line := 0, character := 1 }, stop := { line := 0, character := 2 } }
    { primaryInfo := "", secondaryInfo := some "s", range := { start := 1, stop := 2 } }
    rfl rfl rfl

/-- C8: `translateCompletionItemKind` is total over all 25 completion item
kinds, with Field and Variable mapping to "variableElement", Unit, Value
and Color to "constElement", File and Module to "moduleElement", Snippet
and Text (the default) to "unknown", and the remaining kinds to their fixed
plugin-side kinds; in particular Folder, EnumMember, Constant, Struct,
Event, Operator and TypeParameter all fall through to "unknown". -/
theorem C8_translateCompletionItemKind_table :
    translateCompletionItemKind CompletionItemKind.Text = "unknown" ∧
    translateCompletionItemKind CompletionItemKind.Method = "memberFunctionElement" ∧
    translateCompletionItemKind CompletionItemKind.Function = "functionElement" ∧
    translateCompletionItemKind CompletionItemKind.Constructor =
      "constructorImplementationElement" ∧
    translateCompletionItemKind CompletionItemKind.Field = "variableElement" ∧
    translateCompletionItemKind CompletionItemKind.Variable = "variableElement" ∧
    translateCompletionItemKind CompletionItemKind.Class = "classElement" ∧
    translateCompletionItemKind CompletionItemKind.Interface = "interfaceElement" ∧
    translateCompletionItemKind CompletionItemKind.Module = "moduleElement" ∧
    translateCompletionItemKind CompletionItemKind.Property = "memberVariableElement" ∧
    translateCompletionItemKind CompletionItemKind.Unit = "constElement" ∧
    translateCompletionItemKind CompletionItemKind.Value = "constElement" ∧
    translateCompletionItemKind CompletionItemKind.Enum = "enumElement" ∧
    translateCompletionItemKind CompletionItemKind.Keyword = "keyword" ∧
    translateCompletionItemKind CompletionItemKind.Snippet = "unknown" ∧
    translateCompletionItemKind CompletionItemKind.Color = "constElement" ∧
    translateCompletionItemKind CompletionItemKind.File = "moduleElement" ∧
    translateCompletionItemKind CompletionItemKind.Reference = "alias" ∧
    translateCompletionItemKind CompletionItemKind.Folder = "unknown" ∧
    translateCompletionItemKind CompletionItemKind.EnumMember = "unknown" ∧
    translateCompletionItemKind CompletionItemKind.Constant = "unknown" ∧
    translateCompletionItemKind CompletionItemKind.Struct = "unknown" ∧
    translateCompletionItemKind CompletionItemKind.Event = "unknown" ∧
    translateCompletionItemKind CompletionItemKind.Operator = "unknown" ∧
    translateCompletionItemKind CompletionItemKind.TypeParameter = "unknown" := by
  exact ⟨rfl, rfl, rfl, rfl, rfl, rfl, rfl, rfl, rfl, rfl, rfl, rfl, rfl, rfl, rfl, rfl, rfl,
    rfl, rfl, rfl, rfl, rfl, rfl, rfl, rfl⟩

/-- C10: every code fix pairs its kind with a matching report — a RENAME
fix carries an unknown-attribute or unknown-tag report, a
CHANGE_LIT_MODIFIER fix a bool-modifier or
primitive-not-assignable-to-complex report, and an IMPORT_COMPONENT fix a
missing-import report. -/
theorem C10_codeFix_kind_report (fix : LitCodeFix) :
    (fix.kind = CodeFixKind.RENAME →
        fix.htmlReport.kind = LitHtmlDiagnosticKind.UNKNOWN_ATTRIBUTE ∨
        fix.htmlReport.kind = LitHtmlDiagnosticKind.UNKNOWN_TAG) ∧
    (fix.kind = CodeFixKind.CHANGE_LIT_MODIFIER →
        fix.htmlReport.kind = LitHtmlDiagnosticKind.BOOL_MOD ∨
        fix.htmlReport.kind = LitHtmlDiagnosticKind.PRIMITIVE_NOT_ASSIGNABLE_TO_COMPLEX) ∧
    (fix.kind = CodeFixKind.IMPORT_COMPONENT →
        fix.htmlReport.kind = LitHtmlDiagnosticKind.MISSING_IMPORT) := by
  cases fix with
  | rename message actions htmlReport hreport =>
    refine ⟨fun _ => hreport, fun h => ?_, fun h => ?_⟩ <;>
      simp [LitCodeFix.kind] at h
  | changeLitModifier message actions htmlReport hreport =>
    refine ⟨fun h => ?_, fun _ => hreport, fun h => ?_⟩ <;>
      simp [LitCodeFix.kind] at h
  | importComponent message actions htmlReport hreport =>
    refine ⟨fun h => ?_, fun h => ?_, fun _ => hreport⟩ <;>
      simp [LitCodeFix.kind] at h

/-- C10, witness: a concrete IMPORT_COMPONENT fix carries a missing-import
report. -/
theorem C10_witness :
    (LitCodeFix.importComponent "add the module" []
        { kind := LitHtmlDiagnosticKind.MISSING_IMPORT } rfl).htmlReport.kind =
      LitHtmlDiagnosticKind.MISSING_IMPORT :=
  (C10_codeFix_kind_report
      (LitCodeFix.importComponent "add the module" []
        { kind := LitHtmlDiagnosticKind.MISSING_IMPORT } rfl)).2.2 rfl
